import Mathlib

/-!
Shallow embedding of the `lamport` repository's core (workflow engine,
static validator, build runner, file/patch store) and proofs about it.

Python strings are modelled as Lean `String`s; Python `dict`s whose
iteration order matters are modelled as association lists in insertion
order; subprocess and filesystem effects are modelled by passing the
external outcome (toolchain result, directory listing, file-system map)
as an explicit argument.
-/

/-! ## Python string primitives (semantics of `in`, `count`, `split`,
`strip`, `startswith`, `endswith` on `str`) -/

/-- Python `sub in s` (substring containment) on char lists:
some suffix of `s` has `pat` as a prefix. -/
def listContainsSub (pat : List Char) : List Char → Bool
  | [] => pat.isEmpty
  | c :: rest => pat.isPrefixOf (c :: rest) || listContainsSub pat rest

/-- Python `sub in s` for strings. -/
def containsSub (s pat : String) : Bool :=
  listContainsSub pat.data s.data

/-- Python `s.count(ch)` for a single-character needle. -/
def pyCountChar (s : String) (c : Char) : Nat :=
  s.data.count c

/-- Python `s.startswith(pre)`. -/
def pyStartswith (s pre : String) : Bool :=
  pre.data.isPrefixOf s.data

/-- Python `s.endswith(suf)`. -/
def pyEndswith (s suf : String) : Bool :=
  suf.data.isSuffixOf s.data

/-- Python `str.split(sep)` for a one-character separator, on char lists. -/
def splitOnChar (sep : Char) : List Char → List (List Char)
  | [] => [[]]
  | c :: rest =>
    match splitOnChar sep rest with
    | [] => [[]]
    | g :: gs => if c = sep then [] :: g :: gs else (c :: g) :: gs

/-- Python `s.split("\n")`. -/
def pySplitLines (s : String) : List String :=
  (splitOnChar (Char.ofNat 10) s.data).map fun l => ⟨l⟩

/-- Python `str.isspace` characters stripped by `str.strip()`
(ASCII whitespace; the compiler diagnostics handled here are ASCII). -/
def pyIsSpace (c : Char) : Bool :=
  c = ' ' || c = Char.ofNat 9 || c = Char.ofNat 10 || c = Char.ofNat 13 ||
    c = Char.ofNat 11 || c = Char.ofNat 12

/-- Python `s.strip()`: drop whitespace from both ends. -/
def pyStrip (s : String) : String :=
  ⟨((s.data.dropWhile pyIsSpace).reverse.dropWhile pyIsSpace).reverse⟩

/-! ## StaticValidator (src/src/validators/static_validator.py)

Each Python layer method appends its findings to the shared
`self.errors` list and `validate` only looks at the whole list, so each
layer is embedded as the list of error strings it appends, and the
shared list is the concatenation in call order. -/

/-- Layer 1, `StaticValidator.validate_rust_syntax`: for each `.rs` file
(in files-map order) append delimiter-mismatch errors and the
missing-framework-import error. -/
def validate_rust_syntax_errs (files : List (String × String)) : List String :=
  (files.filter fun kv => pyEndswith kv.1 ".rs").foldl
    (fun errs kv =>
      let path := kv.1
      let content := kv.2
      let errs :=
        if pyCountChar content (Char.ofNat 123) ≠ pyCountChar content (Char.ofNat 125) then
          errs ++ [path ++ ": Mismatched braces"] else errs
      let errs :=
        if pyCountChar content '(' ≠ pyCountChar content ')' then
          errs ++ [path ++ ": Mismatched parentheses"] else errs
      let errs :=
        if pyCountChar content '[' ≠ pyCountChar content ']' then
          errs ++ [path ++ ": Mismatched brackets"] else errs
      if !containsSub content "use anchor_lang" &&
         !containsSub content "use solana_program" &&
         !pyStartswith (pyStrip content) "//" then
        errs ++ [path ++ ": Missing anchor_lang or solana_program import"]
      else errs)
    []

/-- Layer 2, `StaticValidator.validate_anchor_structure`: one named error
per missing required artifact (substring tests over the path list). -/
def validate_anchor_structure (files : List (String × String)) : List String :=
  let paths := files.map Prod.fst
  (if paths.any fun p => containsSub p "Anchor.toml" then []
   else ["Missing Anchor.toml configuration"]) ++
  (if paths.any fun p => containsSub p "programs" then []
   else ["Missing programs/ directory"]) ++
  (if paths.any fun p => containsSub p "lib.rs" then []
   else ["Missing programs/*/src/lib.rs"])

/-- Layer 2b, `StaticValidator.validate_cargo_toml`: checks each
`Cargo.toml` file for required sections and the anchor-lang dependency. -/
def validate_cargo_toml (files : List (String × String)) : List String :=
  (files.filter fun kv => pyEndswith kv.1 "Cargo.toml").foldl
    (fun errs kv =>
      let path := kv.1
      let content := kv.2
      let errs :=
        if !containsSub content "[dependencies]" && !containsSub content "[lib]" then
          errs ++ [path ++ ": Missing expected sections"]
        else errs
      if !containsSub content "anchor-lang" && containsSub path "programs" then
        errs ++ [path ++ ": Missing anchor-lang dependency"]
      else errs)
    []

/-- The shared `self.errors` list after the three local checks of
`StaticValidator.validate` have run (they all run unconditionally,
appending in call order). -/
def localErrors (files : List (String × String)) : List String :=
  validate_rust_syntax_errs files ++ validate_anchor_structure files ++
    validate_cargo_toml files

/-- Matches `re.search(r"error\[([^\]]+)\]: ([^\n]+)", line)` at the start
of the char list: `error[`, then one or more non-`]` chars, then `]: `,
then at least one non-newline char. -/
def matchesBracketedHere (cs : List Char) : Bool :=
  "error[".data.isPrefixOf cs &&
    (let rest := cs.drop 6
     let code := rest.takeWhile fun c => c ≠ ']'
     !code.isEmpty &&
       "]: ".data.isPrefixOf (rest.drop code.length) &&
       (match rest.drop (code.length + 3) with
        | [] => false
        | d :: _ => d ≠ Char.ofNat 10))

/-- Embeds `re.search` of the bracketed-code pattern anywhere in the line. -/
def matchesBracketed (cs : List Char) : Bool :=
  match cs with
  | [] => false
  | _ :: rest => matchesBracketedHere cs || matchesBracketed rest

/-- Embeds `re.search` of the plain `error: ` pattern at the start of the
char list: `error: ` followed by at least one non-newline char. -/
def matchesPlainErrorHere (cs : List Char) : Bool :=
  "error: ".data.isPrefixOf cs &&
    (match cs.drop 7 with
     | [] => false
     | d :: _ => d ≠ Char.ofNat 10)

def matchesPlainError (cs : List Char) : Bool :=
  match cs with
  | [] => false
  | _ :: rest => matchesPlainErrorHere cs || matchesPlainError rest

/-- Embeds `re.search` of the source-location arrow pattern at the start
of the char list: `--> ` followed by at least one non-newline char. -/
def matchesArrowHere (cs : List Char) : Bool :=
  "--> ".data.isPrefixOf cs &&
    (match cs.drop 4 with
     | [] => false
     | d :: _ => d ≠ Char.ofNat 10)

def matchesArrow (cs : List Char) : Bool :=
  match cs with
  | [] => false
  | _ :: rest => matchesArrowHere cs || matchesArrow rest

/-- A line matches one of the three diagnostic patterns of
`StaticValidator._parse_errors` (the `break` after the first matching
pattern only prevents a double append, so a line contributes exactly one
entry iff any pattern matches). -/
def lineMatches (line : String) : Bool :=
  matchesBracketed line.data || matchesPlainError line.data ||
    matchesArrow line.data

/-- Embeds `StaticValidator._parse_errors`: scan the output line by line,
append `line.strip()` for each line matching a diagnostic pattern,
return the first 20 entries. -/
def parse_errors (output : String) : List String :=
  ((pySplitLines output).foldl
    (fun errors line =>
      if lineMatches line then errors ++ [pyStrip line] else errors)
    []).take 20

/-- Result dictionary of `StaticValidator.validate`, plus the
instrumentation flag `toolchainRan` recording whether the
`run_cargo_check` subprocess layer executed. -/
structure ValidationResult where
  passed : Bool
  errors : List String
  logs : String
  toolchainRan : Bool
deriving DecidableEq, Repr

/-- Embeds `StaticValidator.validate`: run the three local layers; if they
recorded any error return early (empty log, no subprocess); otherwise run
the toolchain check, whose outcome `cargo = (success, output)` is passed
in explicitly. -/
def validate (files : List (String × String)) (cargo : Bool × String) :
    ValidationResult :=
  match localErrors files with
  | [] =>
    if cargo.1 then ⟨true, [], cargo.2, true⟩
    else ⟨false, parse_errors cargo.2, cargo.2, true⟩
  | e :: rest => ⟨false, e :: rest, "", false⟩

/-- The slice of the workflow state read and written by
`StaticValidator.run` (the `{**state, ...}` merge keeps every other key,
modelled by `{ state with ... }` keeping the other fields). -/
structure SVState where
  files : List (String × String)
  validation_passed : Bool
  validation_errors : List String
  build_logs : String
  current_step : String
deriving DecidableEq, Repr

/-- Embeds `StaticValidator.run`: empty files map short-circuits with a fixed
error and never calls `validate`; otherwise thread `validate`'s result
into the state. The second component reports whether the toolchain
subprocess ran. -/
def validator_run (state : SVState) (cargo : Bool × String) :
    SVState × Bool :=
  match state.files with
  | [] =>
    ({ state with
        validation_passed := false
        validation_errors := ["No files to validate"]
        current_step := "static_validator" }, false)
  | f :: fs =>
    let result := validate (f :: fs) cargo
    ({ state with
        validation_passed := result.passed
        validation_errors := result.errors
        build_logs := result.logs
        current_step :=
          if result.passed then "build_contract" else "debugger" },
      result.toolchainRan)

/-! ## FileOps (src/src/utils/file_ops.py)

Absolute POSIX paths are modelled as segment lists (the resolved
`base_path` is given as segments); the filesystem is a map from resolved
absolute path to stored text. `Path.resolve()` on a symlink-free tree is
lexical resolution of `.`, `..` and empty components. -/

/-- Lexical `(base_path / rel_path).resolve()` over path segments. -/
def resolveSegs (base : List String) (rel : String) : List String :=
  ((splitOnChar (Char.ofNat 47) rel.data).map fun l => (⟨l⟩ : String)).foldl
    (fun acc seg =>
      if seg = "" ∨ seg = "." then acc
      else if seg = ".." then acc.dropLast
      else acc ++ [seg])
    base

/-- Python `str(path)` for an absolute POSIX path given as segments. -/
def pathStr (segs : List String) : String :=
  match segs with
  | [] => "/"
  | _ => segs.foldl (fun acc s => acc ++ "/" ++ s) ""

/-- Embeds `FileOps._resolve`: resolve, then guard with
`str(path).startswith(str(self.base_path))`; `none` models the raised
`ValueError` ("Path traversal detected"). -/
def fileops_resolve (base : List String) (rel : String) :
    Option (List String) :=
  let p := resolveSegs base rel
  if pyStartswith (pathStr p) (pathStr base) then some p else none

/-- The modelled on-disk store: resolved absolute path → stored text. -/
abbrev FileStore := List (List String × String)

/-- Python dict assignment `m[k] = v`: update the existing key in place
(keeping its position) or append a new key at the end. -/
def dictUpsert {α : Type} [DecidableEq α] (m : List (α × String)) (k : α)
    (v : String) : List (α × String) :=
  if m.any fun kv => kv.1 = k then
    m.map fun kv => if kv.1 = k then (k, v) else kv
  else m ++ [(k, v)]

/-- What a completed atomic temp-file-then-rename write leaves on disk
at the target path. -/
def setFile (fs : FileStore) (p : List String) (content : String) :
    FileStore :=
  dictUpsert fs p content

/-- Embeds `FileOps.write_files` (and, identically, `FileOps.apply_patches`):
resolve each relative path and store the content verbatim
(`write_text(..., newline="\n")` performs no newline translation);
`none` models the `ValueError` raised on a rejected path. -/
def write_files (base : List String) (fs : FileStore)
    (files : List (String × String)) : Option FileStore :=
  match files with
  | [] => some fs
  | (rel, content) :: rest =>
    match fileops_resolve base rel with
    | none => none
    | some p => write_files base (setFile fs p content) rest

/-- Universal-newline translation applied by `read_text()` (text mode,
`newline=None`): `\r\n` and lone `\r` both become `\n`. -/
def univNL : List Char → List Char
  | [] => []
  | [c] => if c = Char.ofNat 13 then [Char.ofNat 10] else [c]
  | c :: d :: rest =>
    if c = Char.ofNat 13 then
      if d = Char.ofNat 10 then Char.ofNat 10 :: univNL rest
      else Char.ofNat 10 :: univNL (d :: rest)
    else c :: univNL (d :: rest)

/-- Embeds `FileOps.read_file`: resolve the path and read the stored bytes back
as text with universal-newline translation; `none` models the raised
`ValueError` / `FileNotFoundError`. -/
def read_file (base : List String) (fs : FileStore) (rel : String) :
    Option String :=
  match fileops_resolve base rel with
  | none => none
  | some p =>
    match fs.find? fun kv => kv.1 = p with
    | none => none
    | some kv => some ⟨univNL kv.2.data⟩

/-- A resolved path is inside the store's root directory (it is the root
or a descendant of it). -/
def inRoot (base p : List String) : Prop := base <+: p

instance (base p : List String) : Decidable (inRoot base p) :=
  inferInstanceAs (Decidable (base <+: p))

/-! ## Builder (src/src/utils/builder.py) -/

/-- Outcome of the `subprocess.run` call inside `Builder.run_command`:
normal completion with an exit code, `subprocess.TimeoutExpired`, or
`FileNotFoundError`. -/
inductive ProcOutcome where
  | completed (returncode : Int) (stdout : String) (stderr : String)
  | timedOut
  | fileNotFound
deriving DecidableEq, Repr

/-- Embeds `Builder.run_command`: both exceptional outcomes are converted to an
ordinary failure triple with a synthetic diagnostic (no exception
reaches the caller — the embedding is a total function). `cmd.headD ""`
stands for `cmd[0]` (defined whenever `cmd` is non-empty, as at every
call site). -/
def run_command (cmd : List String) (outcome : ProcOutcome) :
    Bool × String × String :=
  match outcome with
  | .completed rc out err => (rc == 0, out, err)
  | .timedOut => (false, "", "Command timed out")
  | .fileNotFound => (false, "", "Command not found: " ++ cmd.headD "")

/-- Embeds `Builder.get_build_artifact`: first `*.so` entry of the
`target/deploy` directory listing (given explicitly, in directory
order), or `none` when the directory does not exist or holds no match.
Entries are the artifact paths as later printed. -/
def get_build_artifact (deployExists : Bool) (deployEntries : List String) :
    Option String :=
  if deployExists then deployEntries.find? fun f => pyEndswith f ".so"
  else none

/-- Embeds `Builder.verify_build`: the full build's reported outcome is
authoritative; artifact discovery only refines the success message. -/
def verify_build (anchorResult : Bool × String) (deployExists : Bool)
    (deployEntries : List String) : Bool × String :=
  if anchorResult.1 then
    match get_build_artifact deployExists deployEntries with
    | some f => (true, "Build successful: " ++ f)
    | none => (true, "Build successful (artifact location unknown)")
  else (false, anchorResult.2)

/-! ## Debugger (src/src/agents/debugger.py) -/

/-- One entry of the `patches` array extracted from the agent's JSON:
`patch.get("path")` / `patch.get("content")` are `none` when the key is
absent. -/
structure PatchJson where
  path : Option String
  content : Option String
deriving DecidableEq, Repr

/-- The two keys of the extracted JSON object that
`Debugger._format_agent_result` reads: `patches` and the fallback
`files` map. -/
structure AgentData where
  patches : Option (List PatchJson)
  files : Option (List (String × String))
deriving DecidableEq, Repr

/-- Embeds `patches = data.get("patches", [])` followed by the fallback
branch taken when `patches` is empty and the `files` key is present. -/
def getPatches (data : AgentData) : List PatchJson :=
  match data.patches.getD [], data.files with
  | [], some fm => fm.map fun kv => ⟨some kv.1, some kv.2⟩
  | p, _ => p

/-- The slice of the workflow state read and written by
`Debugger._format_agent_result`. -/
structure DbgState where
  files : List (String × String)
  error_message : Option String
  current_step : String
deriving DecidableEq, Repr

/-- Python dict assignment `updated_files[path] = content`: update in
place, or append a new key. -/
def setKey (m : List (String × String)) (k v : String) :
    List (String × String) :=
  dictUpsert m k v

/-- The patch-application loop of `Debugger._format_agent_result`: each
patch whose `path` and `content` are both present and truthy (non-empty)
is written into the files map; the rest are skipped
(`if path and content`). -/
def applyPatchList (fs : List (String × String)) (ps : List PatchJson) :
    List (String × String) :=
  ps.foldl
    (fun fs patch =>
      match patch.path, patch.content with
      | some pa, some c =>
        if pa = "" ∨ c = "" then fs else setKey fs pa c
      | _, _ => fs)
    fs

/-- Embeds `Debugger._format_agent_result`: a non-empty patch list
updates the files map, clears `error_message` and routes back to static
validation; an empty patch list routes to `abort` with a non-empty
error message, files unchanged. -/
def format_agent_result (state : DbgState) (output : String)
    (data : AgentData) : DbgState :=
  match getPatches data with
  | [] =>
    { state with
        current_step := "abort"
        error_message := some ("Debugger failed: " ++ output) }
  | p :: ps =>
    { state with
        files := applyPatchList state.files (p :: ps)
        error_message := none
        current_step := "static_validator" }

/-! ## Workflow engine retry policy

`MAX_RETRIES` is declared in src/src/schemas/models.py; the routing
itself lives in src/graph/workflow.py, which is not among the sources. -/

/-- Constant `MAX_RETRIES` from src/src/schemas/models.py. -/
def MAX_RETRIES : Nat := 1

/-- Modelled from the spec: the step tags of the Workflow Engine's
routing table (src/graph/workflow.py is absent from the sources; §4.1 of
the design gives the table
`spec_interpretation → project_planning → code_generation →
static_validation → {build | repair} → {success | failure}` with
`repair → static_validation` the only cycle). -/
inductive Step where
  | spec_interpretation
  | project_planning
  | code_generation
  | static_validation
  | repair
  | build
  | success
  | failure
deriving DecidableEq, Repr

/-- The engine-visible slice of the pipeline state. -/
structure EngineState where
  current_step : Step
  retry_count : Nat
deriving DecidableEq, Repr

/-- Modelled from the spec: one routing decision of the Workflow Engine
(spec §4.1, steps 3–6, and §4.1 edge cases). `ok` is the invoked
stage's outcome: stage produced usable output / validation passed /
repair returned patches / build succeeded. A failed stage is fatal; a
failed validation re-enters repair only while
`retry_count < MAX_RETRIES`, incrementing the counter on entry;
a repair returning no patches aborts. -/
def stepEngine (s : EngineState) (ok : Bool) : EngineState :=
  match s.current_step with
  | .spec_interpretation =>
    if ok then ⟨.project_planning, s.retry_count⟩
    else ⟨.failure, s.retry_count⟩
  | .project_planning =>
    if ok then ⟨.code_generation, s.retry_count⟩
    else ⟨.failure, s.retry_count⟩
  | .code_generation =>
    if ok then ⟨.static_validation, s.retry_count⟩
    else ⟨.failure, s.retry_count⟩
  | .static_validation =>
    if ok then ⟨.build, s.retry_count⟩
    else if s.retry_count < MAX_RETRIES then ⟨.repair, s.retry_count + 1⟩
    else ⟨.failure, s.retry_count⟩
  | .repair =>
    if ok then ⟨.static_validation, s.retry_count⟩
    else ⟨.failure, s.retry_count⟩
  | .build =>
    if ok then ⟨.success, s.retry_count⟩
    else ⟨.failure, s.retry_count⟩
  | .success => s
  | .failure => s

/-- A terminal step (spec §3: exactly one terminal-success and one
terminal-failure state, no step reachable from them). -/
def isTerminal (s : EngineState) : Bool :=
  s.current_step = Step.success || s.current_step = Step.failure

/-- Modelled from the spec: the engine loop, consuming one stage outcome
per iteration until a terminal step (or the outcome list is spent). -/
def runEngine : List Bool → EngineState → EngineState
  | [], s => s
  | o :: os, s => if isTerminal s then s else runEngine os (stepEngine s o)

/-- How many times the repair stage executes along the run. -/
def repairRuns : List Bool → EngineState → Nat
  | [], _ => 0
  | o :: os, s =>
    if isTerminal s then 0
    else
      (if s.current_step = Step.repair then 1 else 0) +
        repairRuns os (stepEngine s o)


/-! ## Claims about the StaticValidator -/

/-- C1 (amended). When the syntax-heuristic layer records at least one
error, `StaticValidator.validate` does not run the toolchain layer (no
subprocess is spawned) and returns an empty log with `passed = false`;
however, the structural and Cargo.toml layers still execute, and the
returned errors are the concatenation of all three local layers'
errors, not the syntax layer's errors alone. -/
theorem spec_c1 (files : List (String × String)) (cargo : Bool × String)
    (h : validate_rust_syntax_errs files ≠ []) :
    (validate files cargo).toolchainRan = false ∧
    (validate files cargo).errors =
      validate_rust_syntax_errs files ++ validate_anchor_structure files ++
        validate_cargo_toml files ∧
    (validate files cargo).logs = "" ∧
    (validate files cargo).passed = false := by
  have hl : localErrors files ≠ [] := by
    intro he
    exact h (List.append_eq_nil.mp (List.append_eq_nil.mp he).1).1
  cases hls : localErrors files with
  | nil => exact absurd hls hl
  | cons e rest =>
    have hv : validate files cargo = ⟨false, e :: rest, "", false⟩ := by
      unfold validate
      rw [hls]
    rw [hv]
    exact ⟨rfl, by rw [← hls]; rfl, rfl, rfl⟩

/-- C1 (counterexample to the claim as stated): on a files map whose
only entry has mismatched braces, the syntax layer fails, yet the
returned errors are not just the syntax layer's — the structural layer
ran and contributed "Missing Anchor.toml configuration". -/
theorem spec_c1_counterexample :
    validate_rust_syntax_errs [("lib.rs", "fn x() \x7b")] ≠ [] ∧
    "Missing Anchor.toml configuration" ∈
      (validate [("lib.rs", "fn x() \x7b")] (true, "")).errors ∧
    (validate [("lib.rs", "fn x() \x7b")] (true, "")).errors ≠
      validate_rust_syntax_errs [("lib.rs", "fn x() \x7b")] := by decide

/-- C1 witness: the amended theorem instantiated at a concrete failing
files map and toolchain outcome. -/
theorem spec_c1_witness :
    validate_rust_syntax_errs [("a.rs", "fn q() \x7b")] ≠ [] ∧
    ((validate [("a.rs", "fn q() \x7b")] (true, "ok")).toolchainRan = false ∧
     (validate [("a.rs", "fn q() \x7b")] (true, "ok")).errors =
       validate_rust_syntax_errs [("a.rs", "fn q() \x7b")] ++
         validate_anchor_structure [("a.rs", "fn q() \x7b")] ++
           validate_cargo_toml [("a.rs", "fn q() \x7b")] ∧
     (validate [("a.rs", "fn q() \x7b")] (true, "ok")).logs = "" ∧
     (validate [("a.rs", "fn q() \x7b")] (true, "ok")).passed = false) :=
  ⟨by decide, spec_c1 _ _ (by decide)⟩

/-- C4 (amended). On `files = [("lib.rs", "fn x() {")]` the validator
returns `passed = false` and an empty log without running the
toolchain, but the errors list holds four entries — the brace mismatch,
the missing-import error from the same layer, and the two structural
errors — with "lib.rs: Mismatched braces" first, not the one-element
list of the claim. -/
theorem spec_c4 (cargo : Bool × String) :
    validate [("lib.rs", "fn x() \x7b")] cargo =
      ⟨false,
       ["lib.rs: Mismatched braces",
        "lib.rs: Missing anchor_lang or solana_program import",
        "Missing Anchor.toml configuration",
        "Missing programs/ directory"], "", false⟩ := rfl

/-- C4 (counterexample to the claim as stated): the returned errors are
not the one-element list `["lib.rs: Mismatched braces"]`. -/
theorem spec_c4_counterexample :
    (validate [("lib.rs", "fn x() \x7b")] (true, "")).errors ≠
      ["lib.rs: Mismatched braces"] := by decide

/-- C10. `StaticValidator.run` on a state with an empty files map
returns the state with `validation_passed = false`,
`validation_errors = ["No files to validate"]` and
`current_step = "static_validator"`, for every toolchain outcome, and
the toolchain subprocess is not spawned (second component `false`);
`validate` and its layers are never entered. -/
theorem spec_c10 (state : SVState) (cargo : Bool × String)
    (h : state.files = []) :
    validator_run state cargo =
      ({ state with
          validation_passed := false
          validation_errors := ["No files to validate"]
          current_step := "static_validator" }, false) := by
  obtain ⟨fs, vp, ve, bl, cs⟩ := state
  cases h
  rfl

/-- C10 witness: the theorem instantiated at a concrete empty-files
state and a concrete (failing) toolchain outcome. -/
theorem spec_c10_witness :
    (⟨[], true, [], "old", "code_generator"⟩ : SVState).files = [] ∧
    validator_run ⟨[], true, [], "old", "code_generator"⟩ (false, "boom") =
      (⟨[], false, ["No files to validate"], "old", "static_validator"⟩, false) :=
  ⟨rfl, spec_c10 _ _ rfl⟩

/-! ## Claims about the Builder -/

/-- C7. `Builder.run_command` reports a timeout and a missing executable
as ordinary failure triples with a synthetic diagnostic string in place
of captured output; the embedding is a total function, so neither
outcome propagates an exception to the caller. -/
theorem spec_c7 (cmd : List String) (h : cmd ≠ []) :
    run_command cmd ProcOutcome.timedOut = (false, "", "Command timed out") ∧
    run_command cmd ProcOutcome.fileNotFound =
      (false, "", "Command not found: " ++ cmd.head h) := by
  refine ⟨rfl, ?_⟩
  cases cmd with
  | nil => exact absurd rfl h
  | cons a as => rfl

/-- C7 witness: the theorem instantiated at a concrete command. -/
theorem spec_c7_witness :
    (["cargo", "check"] : List String) ≠ [] ∧
    (run_command ["cargo", "check"] ProcOutcome.timedOut =
       (false, "", "Command timed out") ∧
     run_command ["cargo", "check"] ProcOutcome.fileNotFound =
       (false, "", "Command not found: cargo")) :=
  ⟨by decide, spec_c7 ["cargo", "check"] (by decide)⟩

/-- C8. When the full build reports success, `Builder.verify_build`
always reports success: with the success message naming the first
`.so` artifact under `target/deploy` when one exists, and with the
"artifact location unknown" qualifier — still success, never failure —
when none does. -/
theorem spec_c8 (anchorResult : Bool × String) (deployExists : Bool)
    (entries : List String) (h : anchorResult.1 = true) :
    (verify_build anchorResult deployExists entries).1 = true ∧
    (∀ f, get_build_artifact deployExists entries = some f →
      verify_build anchorResult deployExists entries =
        (true, "Build successful: " ++ f)) ∧
    (get_build_artifact deployExists entries = none →
      verify_build anchorResult deployExists entries =
        (true, "Build successful (artifact location unknown)")) := by
  refine ⟨?_, ?_, ?_⟩
  · cases hg : get_build_artifact deployExists entries <;>
      simp [verify_build, h, hg]
  · intro f hf
    simp [verify_build, h, hf]
  · intro hf
    simp [verify_build, h, hf]

/-- C8 witness: the theorem instantiated at a successful build with one
artifact present, and (separately derivable from the same theorem) the
artifact-free qualifier case checked concretely. -/
theorem spec_c8_witness :
    ((true, "log") : Bool × String).1 = true ∧
    ((verify_build (true, "log") true ["target/deploy/foo.so"]).1 = true ∧
     (∀ f, get_build_artifact true ["target/deploy/foo.so"] = some f →
       verify_build (true, "log") true ["target/deploy/foo.so"] =
         (true, "Build successful: " ++ f)) ∧
     (get_build_artifact true ["target/deploy/foo.so"] = none →
       verify_build (true, "log") true ["target/deploy/foo.so"] =
         (true, "Build successful (artifact location unknown)"))) :=
  ⟨rfl, spec_c8 (true, "log") true ["target/deploy/foo.so"] rfl⟩

/-! ## Claims about the File/Patch Store -/

theorem find?_dictUpsert_self {α : Type} [DecidableEq α]
    (m : List (α × String)) (k : α) (v : String) :
    (dictUpsert m k v).find? (fun kv => kv.1 = k) = some (k, v) := by
  unfold dictUpsert
  split
  case isTrue hany =>
    induction m with
    | nil => simp at hany
    | cons kv rest ih =>
      by_cases hk : kv.1 = k
      · simp [List.find?, hk]
      · have hrest : rest.any (fun kv => kv.1 = k) = true := by
          simp [List.any_cons, hk] at hany
          simpa using hany
        simpa [List.find?, hk] using ih hrest
  case isFalse hany =>
    induction m with
    | nil => simp [List.find?]
    | cons kv rest ih =>
      have hk : ¬ kv.1 = k := by
        intro hk
        exact hany (by simp [List.any_cons, hk])
      have hrest : ¬ rest.any (fun kv => kv.1 = k) = true := by
        intro hr
        exact hany (by simp [List.any_cons, hr])
      simpa [List.find?, hk] using ih hrest

theorem find?_map_update_other {α : Type} [DecidableEq α]
    (m : List (α × String)) (k k' : α) (v : String) (h : k' ≠ k) :
    (m.map fun kv => if kv.1 = k then (k, v) else kv).find?
        (fun kv => kv.1 = k') =
      m.find? (fun kv => kv.1 = k') := by
  induction m with
  | nil => rfl
  | cons kv rest ih =>
    by_cases hk : kv.1 = k
    · have hne : ¬ ((k, v).1 = k') := fun he => h he.symm
      have hne2 : ¬ (kv.1 = k') := by
        rw [hk]
        intro he
        exact h he.symm
      rw [List.map_cons, if_pos hk, List.find?_cons_of_neg _ (by simpa using hne),
        List.find?_cons_of_neg _ (by simpa using hne2), ih]
    · rw [List.map_cons, if_neg hk]
      by_cases hk' : kv.1 = k'
      · rw [List.find?_cons_of_pos _ (by simpa using hk'),
          List.find?_cons_of_pos _ (by simpa using hk')]
      · rw [List.find?_cons_of_neg _ (by simpa using hk'),
          List.find?_cons_of_neg _ (by simpa using hk'), ih]

theorem find?_dictUpsert_other {α : Type} [DecidableEq α]
    (m : List (α × String)) (k k' : α) (v : String) (h : k' ≠ k) :
    (dictUpsert m k v).find? (fun kv => kv.1 = k') =
      m.find? (fun kv => kv.1 = k') := by
  unfold dictUpsert
  split
  · exact find?_map_update_other m k k' v h
  · have hne : ¬ ((k, v).1 = k') := fun he => h he.symm
    rw [List.find?_append, List.find?_cons_of_neg _ (by simpa using hne)]
    simp

theorem univNL_eq_self (cs : List Char) (h : Char.ofNat 13 ∉ cs) :
    univNL cs = cs := by
  induction cs with
  | nil => rfl
  | cons c rest ih =>
    have hc : ¬ c = Char.ofNat 13 := by
      intro he
      exact h (by simp [he])
    have hrest : Char.ofNat 13 ∉ rest := by
      intro hr
      exact h (by simp [hr])
    cases rest with
    | nil => simp [univNL, hc]
    | cons d rest2 => simpa [univNL, hc] using ih hrest

theorem foldl_slash_extends (ex : List String) (acc : String) :
    acc.data <+: (ex.foldl (fun a s => a ++ "/" ++ s) acc).data := by
  induction ex generalizing acc with
  | nil => exact List.prefix_refl _
  | cons e rest ih =>
    simp only [List.foldl_cons]
    refine List.IsPrefix.trans ?_ (ih (acc ++ "/" ++ e))
    exact ⟨"/".data ++ e.data, by simp [String.data_append]⟩

theorem pathStr_startswith (base ex : List String) :
    pyStartswith (pathStr (base ++ ex)) (pathStr base) = true := by
  unfold pyStartswith
  rw [List.isPrefixOf_iff_prefix]
  cases base with
  | nil =>
    cases ex with
    | nil => exact List.prefix_refl _
    | cons e rest =>
      show ("/" : String).data <+: (pathStr (e :: rest)).data
      show ("/" : String).data <+:
        ((e :: rest).foldl (fun a s => a ++ "/" ++ s) "").data
      simp only [List.foldl_cons]
      refine List.IsPrefix.trans ?_ (foldl_slash_extends rest ("" ++ "/" ++ e))
      exact ⟨e.data, rfl⟩
  | cons b bs =>
    cases ex with
    | nil => simp
    | cons e rest =>
      show ((b :: bs).foldl (fun a s => a ++ "/" ++ s) "").data <+:
        ((b :: bs ++ e :: rest).foldl (fun a s => a ++ "/" ++ s) "").data
      rw [show b :: bs ++ e :: rest = (b :: bs) ++ (e :: rest) from rfl,
        List.foldl_append]
      exact foldl_slash_extends _ _

/-- C2 (code bug): `FileOps._resolve` guards with a bare string
`startswith` against `str(base_path)`, so a `..` path that resolves to a
*sibling* of the root whose name extends the root's name as a string
(here `/work/projx` beside root `/work/proj`) passes the check:
`write_files` succeeds and creates a file outside the root, and
`read_file` reads files outside the root, while a sibling without that
string prefix is correctly rejected. -/
theorem spec_c2 :
    write_files ["work", "proj"] [] [("../projx/evil.rs", "x")] =
      some [(["work", "projx", "evil.rs"], "x")] ∧
    ¬ inRoot ["work", "proj"] ["work", "projx", "evil.rs"] ∧
    read_file ["work", "proj"] [(["work", "projx", "secret.rs"], "s")]
      "../projx/secret.rs" = some "s" ∧
    fileops_resolve ["work", "proj"] "../other/evil.rs" = none := by decide

/-- C9 (counterexample to the claim as stated): for the in-root path
`lib.rs` and the content `"a\rb"`, writing stores the text verbatim but
`read_text()`'s universal-newline translation returns `"a\nb"`, not the
written content. -/
theorem spec_c9_counterexample :
    write_files ["store"] [] [("lib.rs", "a\rb")] =
      some [(["store", "lib.rs"], "a\rb")] ∧
    read_file ["store"] [(["store", "lib.rs"], "a\rb")] "lib.rs" =
      some "a\nb" ∧
    ("a\nb" : String) ≠ "a\rb" := by decide

/-- C9 (amended). For every relative path resolving to a proper
descendant of the store root and every content string containing no
carriage-return character, `write_files` followed by `read_file` on the
same path returns exactly the written content (in particular any
content with mismatched-looking brackets inside string literals — the
store never inspects the text). The proper-descendant hypothesis
excludes the root itself, which on a real filesystem is a directory and
not writable; contents with a bare `\r` are excluded because the read
applies universal-newline translation (see the counterexample). -/
theorem spec_c9 (base : List String) (fs : FileStore) (rel content : String)
    (hin : base <+: resolveSegs base rel)
    (_hproper : resolveSegs base rel ≠ base)
    (hcr : Char.ofNat 13 ∉ content.data) :
    write_files base fs [(rel, content)] =
      some (setFile fs (resolveSegs base rel) content) ∧
    read_file base (setFile fs (resolveSegs base rel) content) rel =
      some content := by
  have hst : pyStartswith (pathStr (resolveSegs base rel)) (pathStr base) =
      true := by
    obtain ⟨ex, hex⟩ := hin
    rw [← hex]
    exact pathStr_startswith base ex
  have hres : fileops_resolve base rel = some (resolveSegs base rel) := by
    unfold fileops_resolve
    simp [hst]
  constructor
  · simp [write_files, hres]
  · unfold read_file setFile
    rw [hres]
    simp only [find?_dictUpsert_self]
    cases content with
    | mk cdata => simp [univNL_eq_self cdata hcr]

/-- C9 witness: the amended theorem instantiated at a concrete store,
path and content (CR-free, with mismatched-looking brackets inside a
string literal). -/
theorem spec_c9_witness :
    (["store"] : List String) <+: resolveSegs ["store"] "src/lib.rs" ∧
    resolveSegs ["store"] "src/lib.rs" ≠ ["store"] ∧
    Char.ofNat 13 ∉ ("let s = \"([\x7b\";" : String).data ∧
    (write_files ["store"] [] [("src/lib.rs", "let s = \"([\x7b\";")] =
       some (setFile [] (resolveSegs ["store"] "src/lib.rs")
         "let s = \"([\x7b\";") ∧
     read_file ["store"]
       (setFile [] (resolveSegs ["store"] "src/lib.rs") "let s = \"([\x7b\";")
       "src/lib.rs" = some "let s = \"([\x7b\";") :=
  ⟨by decide, by decide, by decide,
    spec_c9 ["store"] [] "src/lib.rs" "let s = \"([\x7b\";"
      (by decide) (by decide) (by decide)⟩

/-! ## Claims about the Debugger repair stage -/

theorem applyPatchList_find?_untouched (ps : List PatchJson)
    (fs : List (String × String)) (pa : String)
    (h : ∀ patch ∈ ps, patch.path ≠ some pa) :
    (applyPatchList fs ps).find? (fun kv => kv.1 = pa) =
      fs.find? (fun kv => kv.1 = pa) := by
  induction ps generalizing fs with
  | nil => rfl
  | cons q rest ih =>
    have hq : q.path ≠ some pa := h q (by simp)
    have hrest : ∀ patch ∈ rest, patch.path ≠ some pa := by
      intro patch hp
      exact h patch (by simp [hp])
    unfold applyPatchList
    rw [List.foldl_cons]
    show (applyPatchList _ rest).find? _ = _
    cases hpath : q.path with
    | none =>
      cases q.content <;> simp [hpath] <;> exact ih fs hrest
    | some pa' =>
      have hne : pa ≠ pa' := by
        intro he
        exact hq (by rw [hpath, he])
      cases q.content with
      | none => simp [hpath]; exact ih fs hrest
      | some c =>
        by_cases hskip : pa' = "" ∨ c = ""
        · simp [hpath, hskip]
          exact ih fs hrest
        · simp [hpath, hskip]
          rw [ih (setKey fs pa' c) hrest]
          unfold setKey
          exact find?_dictUpsert_other fs pa' pa c hne

theorem applyPatchList_find?_applied (ps : List PatchJson)
    (fs : List (String × String)) (pa c : String)
    (hmem : (⟨some pa, some c⟩ : PatchJson) ∈ ps)
    (honce : (ps.countP fun p => p.path = some pa) = 1)
    (hpa : pa ≠ "") (hc : c ≠ "") :
    (applyPatchList fs ps).find? (fun kv => kv.1 = pa) = some (pa, c) := by
  induction ps generalizing fs with
  | nil => simp at hmem
  | cons q rest ih =>
    rw [List.countP_cons] at honce
    by_cases hq : q.path = some pa
    · have hqb : (decide (q.path = some pa)) = true := by simp [hq]
      rw [hqb, if_pos rfl] at honce
      have hzero : (rest.countP fun p => p.path = some pa) = 0 := by omega
      have hclean : ∀ patch ∈ rest, patch.path ≠ some pa := by
        intro patch hp he
        have hpos : 0 < rest.countP fun p => p.path = some pa :=
          List.countP_pos_iff.mpr ⟨patch, hp, by simp [he]⟩
        omega
      have hqeq : q = ⟨some pa, some c⟩ := by
        rcases List.mem_cons.mp hmem with he | hin
        · exact he.symm
        · exact ((hclean _ hin) rfl).elim
      subst hqeq
      unfold applyPatchList
      rw [List.foldl_cons]
      show (applyPatchList (if pa = "" ∨ c = "" then fs else setKey fs pa c)
        rest).find? (fun kv => kv.1 = pa) = some (pa, c)
      rw [if_neg (by simp [hpa, hc])]
      rw [applyPatchList_find?_untouched rest _ pa hclean]
      unfold setKey
      exact find?_dictUpsert_self fs pa c
    · have hqb : (decide (q.path = some pa)) = false := by simp [hq]
      rw [hqb] at honce
      simp only [Bool.false_eq_true, if_false] at honce
      have hin : (⟨some pa, some c⟩ : PatchJson) ∈ rest := by
        rcases List.mem_cons.mp hmem with he | hin
        · exact absurd (by rw [← he]) hq
        · exact hin
      unfold applyPatchList
      rw [List.foldl_cons]
      show (applyPatchList _ rest).find? (fun kv => kv.1 = pa) = some (pa, c)
      exact ih _ hin (by omega)

/-- C6 (amended). When `Debugger._format_agent_result` extracts a
non-empty patch list it clears `error_message`, routes back to
`static_validator`, and updates the files map with every patch whose
path and content are both present and non-empty (uniquely-pathed such
patches end up mapped to their content); patches with a missing or
empty path or content are skipped — not every patch is applied. When
the patch list is empty it routes to `abort` with a non-empty error
message and leaves the files map unchanged. -/
theorem spec_c6 (state : DbgState) (output : String) (data : AgentData) :
    (getPatches data ≠ [] →
      (format_agent_result state output data).error_message = none ∧
      (format_agent_result state output data).current_step =
        "static_validator" ∧
      (format_agent_result state output data).files =
        applyPatchList state.files (getPatches data) ∧
      ∀ pa c, (⟨some pa, some c⟩ : PatchJson) ∈ getPatches data →
        ((getPatches data).countP fun p => p.path = some pa) = 1 →
        pa ≠ "" → c ≠ "" →
        (format_agent_result state output data).files.find?
          (fun kv => kv.1 = pa) = some (pa, c)) ∧
    (getPatches data = [] →
      (format_agent_result state output data).current_step = "abort" ∧
      (format_agent_result state output data).error_message =
        some ("Debugger failed: " ++ output) ∧
      ("Debugger failed: " ++ output) ≠ "" ∧
      (format_agent_result state output data).files = state.files) := by
  constructor
  · intro hne
    cases hp : getPatches data with
    | nil => exact absurd hp hne
    | cons p ps =>
      have hres : format_agent_result state output data =
          { state with
              files := applyPatchList state.files (p :: ps)
              error_message := none
              current_step := "static_validator" } := by
        unfold format_agent_result
        rw [hp]
      rw [hres]
      refine ⟨rfl, rfl, rfl, ?_⟩
      intro pa c hmem honce hpa hc
      exact applyPatchList_find?_applied (p :: ps) state.files pa c hmem
        honce hpa hc
  · intro hp
    have hres : format_agent_result state output data =
        { state with
            current_step := "abort"
            error_message := some ("Debugger failed: " ++ output) } := by
      unfold format_agent_result
      rw [hp]
    rw [hres]
    refine ⟨rfl, rfl, ?_, rfl⟩
    intro he
    have h2 : ("Debugger failed: " : String).data ++ output.data = [] := by
      rw [← String.data_append, he]
    exact absurd (List.append_eq_nil.mp h2).1 (by decide)

/-- C6 (counterexample to the claim as stated): a one-element patch list
whose patch has an empty content string is non-empty, so the repair
branch is taken, but the patch's path is *not* mapped to its content —
the `if path and content` truthiness test skips it and the files map
stays empty. -/
theorem spec_c6_counterexample :
    getPatches ⟨some [⟨some "a.rs", some ""⟩], none⟩ ≠ [] ∧
    (format_agent_result ⟨[], none, "debugger"⟩ "out"
        ⟨some [⟨some "a.rs", some ""⟩], none⟩).current_step =
      "static_validator" ∧
    (format_agent_result ⟨[], none, "debugger"⟩ "out"
        ⟨some [⟨some "a.rs", some ""⟩], none⟩).files.find?
      (fun kv => kv.1 = "a.rs") = none := by decide

/-- C6 witness: the amended theorem's repair branch instantiated at a
concrete state and a concrete single-patch extraction. -/
theorem spec_c6_witness :
    getPatches ⟨some [⟨some "lib.rs", some "fixed"⟩], none⟩ ≠ [] ∧
    (format_agent_result ⟨[("lib.rs", "old")], some "err", "debugger"⟩ "o"
        ⟨some [⟨some "lib.rs", some "fixed"⟩], none⟩).error_message = none ∧
    (format_agent_result ⟨[("lib.rs", "old")], some "err", "debugger"⟩ "o"
        ⟨some [⟨some "lib.rs", some "fixed"⟩], none⟩).current_step =
      "static_validator" ∧
    (format_agent_result ⟨[("lib.rs", "old")], some "err", "debugger"⟩ "o"
        ⟨some [⟨some "lib.rs", some "fixed"⟩], none⟩).files.find?
      (fun kv => kv.1 = "lib.rs") = some ("lib.rs", "fixed") := by
  have h := (spec_c6 ⟨[("lib.rs", "old")], some "err", "debugger"⟩ "o"
    ⟨some [⟨some "lib.rs", some "fixed"⟩], none⟩).1 (by decide)
  exact ⟨by decide, h.1, h.2.1,
    h.2.2.2 "lib.rs" "fixed" (by decide) (by decide) (by decide) (by decide)⟩

/-! ## Claims about diagnostic parsing -/

theorem foldl_matching_append (ls : List String) (acc : List String) :
    ls.foldl
      (fun errors line =>
        if lineMatches line then errors ++ [pyStrip line] else errors)
      acc = acc ++ (ls.filter lineMatches).map pyStrip := by
  induction ls generalizing acc with
  | nil => simp
  | cons l rest ih =>
    by_cases hl : lineMatches l = true
    · simp [List.foldl_cons, hl, ih, List.filter_cons]
    · simp [List.foldl_cons, hl, ih, List.filter_cons]

theorem parse_errors_eq (output : String) :
    parse_errors output =
      (((pySplitLines output).filter lineMatches).map pyStrip).take 20 := by
  unfold parse_errors
  rw [foldl_matching_append]
  simp

theorem takeWhile_all_append_cons (q : Char → Bool) (l₁ : List Char)
    (x : Char) (l₂ : List Char) (h1 : ∀ a ∈ l₁, q a = true)
    (hx : q x = false) : (l₁ ++ x :: l₂).takeWhile q = l₁ := by
  induction l₁ with
  | nil => simp [List.takeWhile_cons, hx]
  | cons a rest ih =>
    have ha := h1 a (by simp)
    simp only [List.cons_append, List.takeWhile_cons, ha, if_true]
    rw [ih fun b hb => h1 b (by simp [hb])]

theorem drop_append_of_le (n : Nat) (l₁ l₂ : List Char)
    (h : n ≤ l₁.length) : (l₁ ++ l₂).drop n = l₁.drop n ++ l₂ := by
  rw [List.drop_append_eq_append_drop, Nat.sub_eq_zero_of_le h,
    List.drop_zero]

theorem isPrefixOf_append_left (a l₁ t : List Char) (h : a <+: l₁) :
    a.isPrefixOf (l₁ ++ t) = true := by
  rw [List.isPrefixOf_iff_prefix]
  exact h.trans (List.prefix_append l₁ t)

theorem marker_matchesBracketedHere (t : List Char) :
    matchesBracketedHere ("error[E0433]: failed to resolve".data ++ t) =
      true := by
  have hdrop6 : ("error[E0433]: failed to resolve".data ++ t).drop 6 =
      "E0433]: failed to resolve".data ++ t := by
    rw [drop_append_of_le 6 _ _ (by decide)]
    rfl
  have htake : ("E0433]: failed to resolve".data ++ t).takeWhile
      (fun c => c ≠ ']') = "E0433".data := by
    have hsplit : "E0433]: failed to resolve".data ++ t =
        "E0433".data ++ ']' :: (": failed to resolve".data ++ t) := rfl
    rw [hsplit]
    exact takeWhile_all_append_cons _ _ _ _ (by decide) (by decide)
  have hdrop5 : ("E0433]: failed to resolve".data ++ t).drop
      ("E0433".data.length) = "]: failed to resolve".data ++ t := by
    rw [drop_append_of_le _ _ _ (by decide)]
    rfl
  have hdrop8 : ("E0433]: failed to resolve".data ++ t).drop
      ("E0433".data.length + 3) = "failed to resolve".data ++ t := by
    rw [drop_append_of_le _ _ _ (by decide)]
    rfl
  simp only [matchesBracketedHere]
  rw [hdrop6, htake, hdrop5, hdrop8,
    isPrefixOf_append_left "error[".data
      "error[E0433]: failed to resolve".data t (by decide),
    isPrefixOf_append_left "]: ".data
      "]: failed to resolve".data t (by decide)]
  rfl

theorem matchesBracketedHere_implies (cs : List Char)
    (h : matchesBracketedHere cs = true) : matchesBracketed cs = true := by
  cases cs with
  | nil => exact absurd h (by decide)
  | cons c rest =>
    unfold matchesBracketed
    rw [h]
    rfl

theorem contains_marker_matchesBracketed (cs : List Char)
    (h : listContainsSub "error[E0433]: failed to resolve".data cs = true) :
    matchesBracketed cs = true := by
  induction cs with
  | nil => exact absurd h (by decide)
  | cons c rest ih =>
    unfold listContainsSub at h
    simp only [Bool.or_eq_true] at h
    rcases h with hpre | hrest
    · obtain ⟨t, ht⟩ := List.isPrefixOf_iff_prefix.mp hpre
      have hh := marker_matchesBracketedHere t
      rw [ht] at hh
      exact matchesBracketedHere_implies _ hh
    · unfold matchesBracketed
      rw [ih hrest]
      simp

theorem marker_lineMatches (line : String)
    (h : containsSub line "error[E0433]: failed to resolve" = true) :
    lineMatches line = true := by
  unfold containsSub at h
  unfold lineMatches
  rw [contains_marker_matchesBracketed line.data h]
  simp

/-- C5 (amended). When the toolchain check exits non-zero (and the local
layers passed), the errors are exactly `parse_errors` of the raw output
and the log carries that output; `parse_errors` maps each matching line
to that line stripped of surrounding whitespace, keeping only the first
20 such lines; any line containing `error[E0433]: failed to resolve`
matches the bracketed-code pattern, and a matching line appears
(stripped) among the errors whenever fewer than 20 matching lines
precede it — but not necessarily beyond the 20-entry cap (see the
counterexample). -/
theorem spec_c5 (files : List (String × String)) (output : String)
    (h : localErrors files = []) :
    (validate files (false, output)).errors = parse_errors output ∧
    (validate files (false, output)).logs = output ∧
    (validate files (false, output)).passed = false ∧
    parse_errors output =
      (((pySplitLines output).filter lineMatches).map pyStrip).take 20 ∧
    (parse_errors output).length ≤ 20 ∧
    (∀ line, containsSub line "error[E0433]: failed to resolve" = true →
      lineMatches line = true) ∧
    (∀ pre line post,
      pySplitLines output = pre ++ line :: post →
      lineMatches line = true →
      (pre.filter lineMatches).length < 20 →
      pyStrip line ∈ parse_errors output) := by
  have hv : validate files (false, output) =
      ⟨false, parse_errors output, output, true⟩ := by
    unfold validate
    rw [h]
    rfl
  refine ⟨by rw [hv], by rw [hv], by rw [hv], parse_errors_eq output, ?_,
    fun line hl => marker_lineMatches line hl, ?_⟩
  · rw [parse_errors_eq]
    exact List.length_take_le 20 _
  · intro pre line post hsplit hmatch hlen
    rw [parse_errors_eq, hsplit, List.filter_append]
    simp only [List.filter_cons, hmatch, if_true]
    rw [List.map_append, List.map_cons, List.take_append_eq_append_take]
    have hlen2 : ((pre.filter lineMatches).map pyStrip).length < 20 := by
      simpa using hlen
    obtain ⟨k, hk⟩ :
        ∃ k, 20 - ((pre.filter lineMatches).map pyStrip).length = k + 1 :=
      ⟨19 - ((pre.filter lineMatches).map pyStrip).length, by omega⟩
    rw [hk, List.take_succ_cons]
    exact List.mem_append_right _ (List.mem_cons_self _ _)

/-- C5 (counterexample to the claim as stated): with 20 matching
source-location lines before it, the line containing
`error[E0433]: failed to resolve` matches a recognized pattern yet does
not appear among the errors — the 20-entry cap drops it, so neither
"each matching line becomes one error" nor "the E0433 line appears
among the errors" holds unconditionally. -/
theorem spec_c5_counterexample :
    lineMatches "error[E0433]: failed to resolve" = true ∧
    "error[E0433]: failed to resolve" ∈ pySplitLines "--> f\n--> f\n--> f\n--> f\n--> f\n--> f\n--> f\n--> f\n--> f\n--> f\n--> f\n--> f\n--> f\n--> f\n--> f\n--> f\n--> f\n--> f\n--> f\n--> f\nerror[E0433]: failed to resolve" ∧
    (parse_errors "--> f\n--> f\n--> f\n--> f\n--> f\n--> f\n--> f\n--> f\n--> f\n--> f\n--> f\n--> f\n--> f\n--> f\n--> f\n--> f\n--> f\n--> f\n--> f\n--> f\nerror[E0433]: failed to resolve").length = 20 ∧
    pyStrip "error[E0433]: failed to resolve" ∉ parse_errors "--> f\n--> f\n--> f\n--> f\n--> f\n--> f\n--> f\n--> f\n--> f\n--> f\n--> f\n--> f\n--> f\n--> f\n--> f\n--> f\n--> f\n--> f\n--> f\n--> f\nerror[E0433]: failed to resolve" := by decide

/-- C5 witness: the amended theorem instantiated at a files map passing
the local layers and a toolchain output whose first line is the E0433
diagnostic. -/
theorem spec_c5_witness :
    localErrors
      [("Anchor.toml", "x"), ("programs/p/src/lib.rs", "use anchor_lang;")] =
      [] ∧
    (validate
      [("Anchor.toml", "x"), ("programs/p/src/lib.rs", "use anchor_lang;")]
      (false, "error[E0433]: failed to resolve\n --> src/lib.rs:1:1")).errors =
      parse_errors "error[E0433]: failed to resolve\n --> src/lib.rs:1:1" ∧
    pyStrip "error[E0433]: failed to resolve" ∈ parse_errors "error[E0433]: failed to resolve\n --> src/lib.rs:1:1" := by
  have h := spec_c5
    [("Anchor.toml", "x"), ("programs/p/src/lib.rs", "use anchor_lang;")]
    "error[E0433]: failed to resolve\n --> src/lib.rs:1:1" (by decide)
  exact ⟨by decide, h.1,
    h.2.2.2.2.2.2 [] "error[E0433]: failed to resolve" [" --> src/lib.rs:1:1"]
      (by decide) (by decide) (by decide)⟩

/-! ## Claims about the workflow engine retry policy -/

theorem stepEngine_retry_le (s : EngineState) (o : Bool)
    (h : s.retry_count ≤ MAX_RETRIES) :
    (stepEngine s o).retry_count ≤ MAX_RETRIES := by
  unfold stepEngine
  cases hs : s.current_step <;> cases o <;>
    first
      | exact h
      | (split_ifs <;> simp [MAX_RETRIES] at * <;> omega)

theorem runEngine_retry_le (os : List Bool) (s : EngineState)
    (h : s.retry_count ≤ MAX_RETRIES) :
    (runEngine os s).retry_count ≤ MAX_RETRIES := by
  induction os generalizing s with
  | nil => exact h
  | cons o rest ih =>
    unfold runEngine
    split
    · exact h
    · exact ih _ (stepEngine_retry_le s o h)

theorem repairRuns_le (os : List Bool) (s : EngineState)
    (h : s.retry_count ≤ MAX_RETRIES) :
    repairRuns os s + s.retry_count ≤
      MAX_RETRIES + (if s.current_step = Step.repair then 1 else 0) := by
  induction os generalizing s with
  | nil =>
    simp only [repairRuns, MAX_RETRIES] at h ⊢
    split_ifs <;> omega
  | cons o rest ih =>
    obtain ⟨step, retry⟩ := s
    cases step with
    | success => simp [repairRuns, isTerminal, MAX_RETRIES] at h ⊢; omega
    | failure => simp [repairRuns, isTerminal, MAX_RETRIES] at h ⊢; omega
    | spec_interpretation =>
      cases o with
      | true =>
        have hih := ih ⟨Step.project_planning, retry⟩ h
        simp [repairRuns, isTerminal, stepEngine, MAX_RETRIES] at h hih ⊢
        omega
      | false =>
        have hih := ih ⟨Step.failure, retry⟩ h
        simp [repairRuns, isTerminal, stepEngine, MAX_RETRIES] at h hih ⊢
        omega
    | project_planning =>
      cases o with
      | true =>
        have hih := ih ⟨Step.code_generation, retry⟩ h
        simp [repairRuns, isTerminal, stepEngine, MAX_RETRIES] at h hih ⊢
        omega
      | false =>
        have hih := ih ⟨Step.failure, retry⟩ h
        simp [repairRuns, isTerminal, stepEngine, MAX_RETRIES] at h hih ⊢
        omega
    | code_generation =>
      cases o with
      | true =>
        have hih := ih ⟨Step.static_validation, retry⟩ h
        simp [repairRuns, isTerminal, stepEngine, MAX_RETRIES] at h hih ⊢
        omega
      | false =>
        have hih := ih ⟨Step.failure, retry⟩ h
        simp [repairRuns, isTerminal, stepEngine, MAX_RETRIES] at h hih ⊢
        omega
    | build =>
      cases o with
      | true =>
        have hih := ih ⟨Step.success, retry⟩ h
        simp [repairRuns, isTerminal, stepEngine, MAX_RETRIES] at h hih ⊢
        omega
      | false =>
        have hih := ih ⟨Step.failure, retry⟩ h
        simp [repairRuns, isTerminal, stepEngine, MAX_RETRIES] at h hih ⊢
        omega
    | repair =>
      cases o with
      | true =>
        have hih := ih ⟨Step.static_validation, retry⟩ h
        simp [repairRuns, isTerminal, stepEngine, MAX_RETRIES] at h hih ⊢
        omega
      | false =>
        have hih := ih ⟨Step.failure, retry⟩ h
        simp [repairRuns, isTerminal, stepEngine, MAX_RETRIES] at h hih ⊢
        omega
    | static_validation =>
      cases o with
      | true =>
        have hih := ih ⟨Step.build, retry⟩ h
        simp [repairRuns, isTerminal, stepEngine, MAX_RETRIES] at h hih ⊢
        omega
      | false =>
        by_cases hr : retry < MAX_RETRIES
        · have hr0 : retry = 0 := by
            simp only [MAX_RETRIES] at hr
            omega
          subst hr0
          have hih := ih ⟨Step.repair, 1⟩ (by simp [MAX_RETRIES])
          simp [repairRuns, isTerminal, stepEngine, MAX_RETRIES] at hih ⊢
          omega
        · have hr1 : retry = 1 := by
            simp only [MAX_RETRIES] at hr h
            omega
          subst hr1
          have hih := ih ⟨Step.failure, 1⟩ h
          simp [repairRuns, isTerminal, stepEngine, MAX_RETRIES] at hih ⊢
          omega

/-- C3. Modelled from the spec (the Workflow Engine module
`src/graph/workflow.py` is absent from the sources; `MAX_RETRIES = 1`
comes from src/src/schemas/models.py): starting a run at the first
stage with `retry_count = 0`, every terminal (or intermediate) state
has `retry_count ≤ MAX_RETRIES`, the repair stage executes at most
`MAX_RETRIES = 1` times per run, and once `retry_count` has reached
`MAX_RETRIES` a validation failure routes directly to terminal
failure, never to repair. -/
theorem spec_c3 (outcomes : List Bool) (s : EngineState)
    (h0 : s.retry_count = 0)
    (hstart : s.current_step = Step.spec_interpretation) :
    (runEngine outcomes s).retry_count ≤ MAX_RETRIES ∧
    repairRuns outcomes s ≤ MAX_RETRIES ∧
    stepEngine ⟨Step.static_validation, MAX_RETRIES⟩ false =
      ⟨Step.failure, MAX_RETRIES⟩ := by
  refine ⟨runEngine_retry_le outcomes s (by simp [h0, MAX_RETRIES]), ?_,
    by decide⟩
  have hb := repairRuns_le outcomes s (by simp [h0, MAX_RETRIES])
  rw [hstart, h0] at hb
  simpa using hb

/-- C3 witness: the theorem instantiated at a concrete run in which
generation succeeds, validation fails once, repair returns patches, and
validation fails again — exhausting the retry budget. -/
theorem spec_c3_witness :
    (⟨Step.spec_interpretation, 0⟩ : EngineState).retry_count = 0 ∧
    (⟨Step.spec_interpretation, 0⟩ : EngineState).current_step =
      Step.spec_interpretation ∧
    ((runEngine [true, true, true, false, true, false]
        ⟨Step.spec_interpretation, 0⟩).retry_count ≤ MAX_RETRIES ∧
     repairRuns [true, true, true, false, true, false]
        ⟨Step.spec_interpretation, 0⟩ ≤ MAX_RETRIES ∧
     stepEngine ⟨Step.static_validation, MAX_RETRIES⟩ false =
       ⟨Step.failure, MAX_RETRIES⟩) :=
  ⟨rfl, rfl, spec_c3 _ _ rfl rfl⟩
